import Mathlib

/-!
Shallow embedding of the LAVA persistence model (src/include/lava.hxx).

Modelling conventions:
- C++ pointers are modelled as `Nat` address values, with `0` standing for
  `nullptr` (`Dua::operator<<` itself prints a null `LabelSet*` as `0`).
- `std::string` is modelled as `String`; `operator<` on strings is the
  lexicographic comparison over characters, embedded by `ltString` below.
- `std::vector` is modelled as `List`; `operator<` on vectors is
  `std::lexicographical_compare`, embedded by `ltLexList` below.
- `std::tie(a, b, ...) < std::tie(a2, b2, ...)` compares lexicographically:
  `a < a2 || (!(a2 < a) && rest)`; `lexStep` embeds one step of that chain.
- Machine integers are `Nat`; the only arithmetic in the file is the
  `SourceModification` hash, where the shifted summand is a `uint32_t`
  (reduced by `u32`) and the accumulator a `uint64_t`.  Every XOR operand is
  below `2 ^ 32`, so the 64-bit accumulator never wraps and needs no
  reduction.
-/

/-- One step of the lexicographic chain produced by comparing two
`std::tie` tuples: `ltab` is the comparison of the heads, `ltba` its
reverse, `rest` the comparison of the tails. -/
def lexStep (ltab ltba rest : Bool) : Bool := ltab || (!ltba && rest)

/-- `std::lexicographical_compare` over lists, with element order `lt`:
embedding of `operator<` on `std::vector` and `std::basic_string`. -/
def ltLexList (lt : α → α → Bool) : List α → List α → Bool
  | _, [] => false
  | [], _ :: _ => true
  | a :: as, b :: bs =>
    if lt a b then true else if lt b a then false else ltLexList lt as bs

/-- Character comparison of `char` values, via the character code. -/
def charLt (a b : Char) : Bool := decide (a < b)

/-- Embedding of `std::string::operator<`. -/
def ltString (s t : String) : Bool := ltLexList charLt s.data t.data

/-- Embedding of `operator<` on `std::vector<uint32_t>` and on vectors of
pointers (pointers compare by address value). -/
def ltListNat (xs ys : List Nat) : Bool := ltLexList (fun a b => decide (a < b)) xs ys

/-- `bool` comparison: `false < true`. -/
def ltBool (a b : Bool) : Bool := !a && b

/-- Reduction to `uint32_t` width. -/
def u32 (n : Nat) : Nat := n % 4294967296

/-- `SourceLval::Timing` (`NULL_TIMING = 0`, `BEFORE_OCCURRENCE = 1`,
`AFTER_OCCURRENCE = 2`). -/
inductive Timing where
  | NULL_TIMING
  | BEFORE_OCCURRENCE
  | AFTER_OCCURRENCE
deriving DecidableEq

/-- Underlying enum value of a `Timing`. -/
def Timing.val : Timing → Nat
  | .NULL_TIMING => 0
  | .BEFORE_OCCURRENCE => 1
  | .AFTER_OCCURRENCE => 2

/-- `struct SourceLval`. -/
structure SourceLval where
  id : Nat
  file : String
  line : Nat
  ast_name : String
  timing : Timing
deriving DecidableEq

/-- `SourceLval::operator<`:
`std::tie(file, line, ast_name, timing) < std::tie(...)`. -/
def ltSourceLval (a b : SourceLval) : Bool :=
  lexStep (ltString a.file b.file) (ltString b.file a.file)
    (lexStep (decide (a.line < b.line)) (decide (b.line < a.line))
      (lexStep (ltString a.ast_name b.ast_name) (ltString b.ast_name a.ast_name)
        (decide (a.timing.val < b.timing.val))))

/-- `struct Dua`.  `lval` is a non-null `const SourceLval*`; `viable_bytes`
holds possibly-null `const LabelSet*` entries. -/
structure Dua where
  id : Nat
  lval : Nat
  viable_bytes : List Nat
  all_labels : List Nat
  inputfile : String
  max_tcn : Nat
  max_cardinality : Nat
  instr : Nat
  fake_dua : Bool
deriving DecidableEq

/-- `Dua::operator<`: `std::tie(lval, viable_bytes, inputfile, max_tcn,
max_cardinality, instr, fake_dua) < std::tie(...)`. -/
def ltDua (a b : Dua) : Bool :=
  lexStep (decide (a.lval < b.lval)) (decide (b.lval < a.lval))
    (lexStep (ltListNat a.viable_bytes b.viable_bytes) (ltListNat b.viable_bytes a.viable_bytes)
      (lexStep (ltString a.inputfile b.inputfile) (ltString b.inputfile a.inputfile)
        (lexStep (decide (a.max_tcn < b.max_tcn)) (decide (b.max_tcn < a.max_tcn))
          (lexStep (decide (a.max_cardinality < b.max_cardinality)) (decide (b.max_cardinality < a.max_cardinality))
            (lexStep (decide (a.instr < b.instr)) (decide (b.instr < a.instr))
              (ltBool a.fake_dua b.fake_dua))))))

/-- `AttackPoint::Type`. -/
inductive ATPType where
  | ATP_FUNCTION_CALL
  | ATP_POINTER_RW
  | ATP_LARGE_BUFFER_AVAIL
deriving DecidableEq

/-- Underlying enum value of an `ATPType`. -/
def ATPType.val : ATPType → Nat
  | .ATP_FUNCTION_CALL => 0
  | .ATP_POINTER_RW => 1
  | .ATP_LARGE_BUFFER_AVAIL => 2

/-- `struct AttackPoint`. -/
structure AttackPoint where
  id : Nat
  file : String
  line : Nat
  type : ATPType
deriving DecidableEq

/-- `AttackPoint::operator<`: `std::tie(file, line, type) < std::tie(...)`. -/
def ltAttackPoint (a b : AttackPoint) : Bool :=
  lexStep (ltString a.file b.file) (ltString b.file a.file)
    (lexStep (decide (a.line < b.line)) (decide (b.line < a.line))
      (decide (a.type.val < b.type.val)))

/-- `AttackPoint::operator<<`: formats the record, but `assert(false)` for
any type other than `ATP_POINTER_RW` and `ATP_FUNCTION_CALL`; the failing
assertion is modelled by `none`. -/
def printAttackPoint (m : AttackPoint) : Option String :=
  if m.type = .ATP_POINTER_RW then
    some ("ATP [" ++ m.file ++ ":" ++ toString m.line ++ "] {ATP_POINTER_RW}")
  else if m.type = .ATP_FUNCTION_CALL then
    some ("ATP [" ++ m.file ++ ":" ++ toString m.line ++ "] {ATP_FUNCTION_CALL}")
  else none

/-- `struct Bug`.  `dua` and `atp` are non-null pointers.  `max_liveness`
is a `float` in the source; no operation of the model ever compares or
computes with it, so it is carried as its raw 32-bit pattern. -/
structure Bug where
  id : Nat
  dua : Nat
  selected_bytes : List Nat
  atp : Nat
  max_liveness : Nat
deriving DecidableEq

/-- `Bug::operator<`: `std::tie(atp, dua, selected_bytes) < std::tie(...)`. -/
def ltBug (a b : Bug) : Bool :=
  lexStep (decide (a.atp < b.atp)) (decide (b.atp < a.atp))
    (lexStep (decide (a.dua < b.dua)) (decide (b.dua < a.dua))
      (ltListNat a.selected_bytes b.selected_bytes))

/-- `struct SourceModification`. -/
structure SourceModification where
  id : Nat := 0
  lval : Nat := 0
  selected_bytes : List Nat := []
  selected_bytes_hash : Nat := 0
  atp : Nat := 0
deriving DecidableEq

/-- The constructor loop
`for i: selected_bytes_hash ^= (selected_bytes[i] + 1) << (16 * (i % 4))`.
The shifted summand is a `uint32_t`, so it is reduced by `u32`; the XOR
accumulator is a `uint64_t` and every operand is below `2 ^ 32`, so the
accumulator needs no reduction. -/
def hashLoop : Nat → List Nat → Nat → Nat
  | _, [], h => h
  | i, b :: bs, h => hashLoop (i + 1) bs (h ^^^ u32 (u32 (b + 1) <<< (16 * (i % 4))))

/-- `selected_bytes_hash` as computed by the `SourceModification`
constructor from the selected-byte sequence. -/
def selectedBytesHash (bytes : List Nat) : Nat := hashLoop 0 bytes 0

/-- The `SourceModification(lval, bytes, atp)` constructor: stores the three
arguments and computes `selected_bytes_hash`; it performs no validation. -/
def mkSourceModification (lval : Nat) (bytes : List Nat) (atp : Nat) : SourceModification :=
  { lval := lval, selected_bytes := bytes, atp := atp,
    selected_bytes_hash := selectedBytesHash bytes }

/-- `SourceModification::operator<`:
`std::tie(atp, lval, selected_bytes_hash) < std::tie(...)` — note the key
it orders by is the hash, not the byte sequence. -/
def ltSourceModification (a b : SourceModification) : Bool :=
  lexStep (decide (a.atp < b.atp)) (decide (b.atp < a.atp))
    (lexStep (decide (a.lval < b.lval)) (decide (b.lval < a.lval))
      (decide (a.selected_bytes_hash < b.selected_bytes_hash)))

/-- `struct Run`.  `build` carries `#pragma db not_null`; `fuzzed` does not,
so a null (`0`) `fuzzed` denotes a baseline run on the original input. -/
structure Run where
  id : Nat
  build : Nat
  fuzzed : Nat
  exitcode : Int
  output : String
  success : Bool
deriving DecidableEq

/-- Well-formedness of a `Run` record under the declared database
constraints: the only `not_null` pointer field is `build`. -/
def RunWF (r : Run) : Prop := r.build ≠ 0

instance (r : Run) : Decidable (RunWF r) := by
  unfold RunWF; infer_instance

/-- The shift amount applied at position `i` of the selected-byte sequence:
`16 * (i % 4)`. -/
def shiftAmt (i : Nat) : Nat := 16 * (i % 4)

/-- The hash as the spec words it: the exclusive-or, over all positions `i`
of the sequence, of the selected index at `i` offset by one, left-shifted
by `shiftAmt i` at 32-bit width. -/
def specHash (bytes : List Nat) : Nat :=
  (bytes.enumFrom 0).foldr (fun ib acc => u32 (u32 (ib.2 + 1) * 2 ^ shiftAmt ib.1) ^^^ acc) 0

/-! ### Irreflexivity and trichotomy of the embedded comparisons -/

theorem natLtb_self (n : Nat) : decide (n < n) = false :=
  decide_eq_false (Nat.lt_irrefl n)

theorem natLtb_eq (a b : Nat) (h1 : decide (a < b) = false) (h2 : decide (b < a) = false) :
    a = b := by
  have g1 := of_decide_eq_false h1
  have g2 := of_decide_eq_false h2
  omega

theorem charLt_self (a : Char) : charLt a a = false :=
  decide_eq_false (lt_irrefl a)

theorem charLt_eq (a b : Char) (h1 : charLt a b = false) (h2 : charLt b a = false) :
    a = b := by
  have g1 := of_decide_eq_false h1
  have g2 := of_decide_eq_false h2
  exact le_antisymm (le_of_not_lt g2) (le_of_not_lt g1)

theorem ltLexList_self (lt : α → α → Bool) (hir : ∀ a, lt a a = false) :
    ∀ xs, ltLexList lt xs xs = false
  | [] => rfl
  | a :: as => by simp [ltLexList, hir a, ltLexList_self lt hir as]

theorem ltLexList_eq (lt : α → α → Bool)
    (htr : ∀ a b, lt a b = false → lt b a = false → a = b) :
    ∀ xs ys, ltLexList lt xs ys = false → ltLexList lt ys xs = false → xs = ys
  | [], [], _, _ => rfl
  | [], _ :: _, h, _ => by simp [ltLexList] at h
  | _ :: _, [], _, h2 => by simp [ltLexList] at h2
  | a :: as, b :: bs, h, h2 => by
    rcases hab : lt a b with _ | _
    · rcases hba : lt b a with _ | _
      · simp only [ltLexList, hab, hba, if_false] at h h2
        have he : a = b := htr a b hab hba
        have ht : as = bs := ltLexList_eq lt htr as bs h h2
        rw [he, ht]
      · simp [ltLexList, hab, hba] at h2
    · simp [ltLexList, hab] at h

theorem ltString_self (s : String) : ltString s s = false :=
  ltLexList_self charLt charLt_self s.data

theorem ltString_eq (s t : String) (h1 : ltString s t = false) (h2 : ltString t s = false) :
    s = t := by
  cases s with
  | mk sd =>
    cases t with
    | mk td =>
      have : sd = td := ltLexList_eq charLt charLt_eq sd td h1 h2
      rw [this]

theorem ltListNat_self (xs : List Nat) : ltListNat xs xs = false :=
  ltLexList_self (fun a b => decide (a < b)) natLtb_self xs

theorem ltBool_self (b : Bool) : ltBool b b = false := by cases b <;> rfl

/-- One `lexStep` level is `true` exactly when the head is strictly
smaller, or the heads are equivalent and the tail comparison is `true` —
provided the head comparison is irreflexive and trichotomous. -/
theorem lexStep_true_iff {α : Type} (ltf : α → α → Bool)
    (hir : ∀ x, ltf x x = false)
    (htr : ∀ x y, ltf x y = false → ltf y x = false → x = y)
    (x y : α) (rest : Bool) {P R : Prop}
    (hP : ltf x y = true ↔ P) (hrest : rest = true ↔ R) :
    lexStep (ltf x y) (ltf y x) rest = true ↔ (P ∨ (x = y ∧ R)) := by
  rcases hxy : ltf x y with _ | _
  · rcases hyx : ltf y x with _ | _
    · have he : x = y := htr x y hxy hyx
      subst he
      have hL : lexStep false false rest = rest := by simp [lexStep]
      rw [hL]
      constructor
      · intro h; exact Or.inr ⟨rfl, hrest.mp h⟩
      · rintro (h | ⟨-, h⟩)
        · exact absurd (hP.mpr h) (by simp [hxy])
        · exact hrest.mpr h
    · have hL : lexStep false true rest = false := by simp [lexStep]
      rw [hL]
      constructor
      · intro h; simp at h
      · rintro (h | ⟨he, -⟩)
        · exact absurd (hP.mpr h) (by simp [hxy])
        · subst he; exact absurd hyx (by simp [hir x])
  · have hL : lexStep true (ltf y x) rest = true := by simp [lexStep]
    rw [hL]
    constructor
    · intro _; exact Or.inl (hP.mp hxy)
    · intro _; rfl

/-- The embedded `std::lexicographical_compare` over characters agrees
with the lexicographic relation `List.Lex` on the character lists. -/
theorem ltLexList_charLt_iff :
    ∀ xs ys : List Char, ltLexList charLt xs ys = true ↔ List.Lex (· < ·) xs ys
  | [], [] => by
    constructor
    · intro h; simp [ltLexList] at h
    · intro h; cases h
  | [], _ :: _ => by
    simp only [ltLexList, true_iff]
    exact List.Lex.nil
  | _ :: _, [] => by
    constructor
    · intro h; simp [ltLexList] at h
    · intro h; cases h
  | a :: as, b :: bs => by
    rcases hab : charLt a b with _ | _
    · rcases hba : charLt b a with _ | _
      · have he : a = b := charLt_eq a b hab hba
        subst he
        constructor
        · intro h
          simp only [ltLexList, hab, Bool.false_eq_true, if_false] at h
          exact List.Lex.cons ((ltLexList_charLt_iff as bs).mp h)
        · intro h
          cases h with
          | cons h2 =>
            simp only [ltLexList, hab, Bool.false_eq_true, if_false]
            exact (ltLexList_charLt_iff as bs).mpr h2
          | rel h2 => exact absurd h2 (of_decide_eq_false hab)
      · constructor
        · intro h; simp [ltLexList, hab, hba] at h
        · intro h
          cases h with
          | cons h2 => exact absurd hba (by simp [charLt_self])
          | rel h2 => exact absurd h2 (of_decide_eq_false hab)
    · constructor
      · intro _; exact List.Lex.rel (of_decide_eq_true hab)
      · intro _; simp [ltLexList, hab]

/-- The ordering the spec declares for `SourceLval`: lexicographic over
exactly the tuple `(file, line, ast_name, timing)`, strings compared
lexicographically over their characters and the timing tag by its enum
value. -/
def ltSourceLvalSpec (a b : SourceLval) : Prop :=
  List.Lex (· < ·) a.file.data b.file.data ∨ (a.file = b.file ∧
    (a.line < b.line ∨ (a.line = b.line ∧
      (List.Lex (· < ·) a.ast_name.data b.ast_name.data ∨ (a.ast_name = b.ast_name ∧
        a.timing.val < b.timing.val)))))

/-! ### Claim theorems -/

/-- Claim C3: any two `Bug` candidates agreeing on the declared uniqueness
key `(atp, dua, selected_bytes)` are equivalent under `Bug::operator<`
(neither is less than the other), whatever their `max_liveness` values, so
creating the same bug twice dedups to a single record. -/
theorem bug_key_equiv (b1 b2 : Bug) (hatp : b1.atp = b2.atp) (hdua : b1.dua = b2.dua)
    (hsel : b1.selected_bytes = b2.selected_bytes) :
    ltBug b1 b2 = false ∧ ltBug b2 b1 = false := by
  constructor <;>
    simp [ltBug, lexStep, hatp, hdua, hsel, natLtb_self, ltListNat_self]

/-- Witness for C3: two concrete `Bug` candidates sharing
`(atp, dua, selected_bytes) = (3, 1, [2, 5])` but with different
`max_liveness` patterns (`10` vs `99`) compare as equivalent. -/
theorem bug_key_equiv_witness :
    ltBug ⟨0, 1, [2, 5], 3, 10⟩ ⟨7, 1, [2, 5], 3, 99⟩ = false ∧
    ltBug ⟨7, 1, [2, 5], 3, 99⟩ ⟨0, 1, [2, 5], 3, 10⟩ = false :=
  bug_key_equiv ⟨0, 1, [2, 5], 3, 10⟩ ⟨7, 1, [2, 5], 3, 99⟩ rfl rfl rfl

/-- Claim C5: the stored `selected_bytes_hash` is a pure function of the
ordered selected-byte sequence alone — two constructions from the same
sequence yield the same hash whatever their `lval` and `atp` arguments. -/
theorem sm_hash_pure_function (l1 a1 l2 a2 : Nat) (bytes : List Nat) :
    (mkSourceModification l1 bytes a1).selected_bytes_hash
      = (mkSourceModification l2 bytes a2).selected_bytes_hash := rfl

/-- Claim C6: the hash is order-sensitive — `[0, 1]` and `[1, 0]` contain
the same indices in different orders yet hash differently
(`0x20001` vs `0x10002`), so reordered selections are distinct inputs. -/
theorem sm_hash_order_sensitive :
    ∃ b1 b2 : List Nat, b1.Perm b2 ∧ b1 ≠ b2 ∧
      selectedBytesHash b1 ≠ selectedBytesHash b2 :=
  ⟨[0, 1], [1, 0], List.Perm.swap 1 0 [], by decide, by decide⟩

/-- Counterexample to claim C9: constructing a `SourceModification` from
the empty selected-byte sequence does not fail — the constructor has no
validation path, and it returns a record with `selected_bytes = []` and
hash `0`. -/
theorem sm_empty_selection_constructed :
    (mkSourceModification 7 [] 9).selected_bytes = [] ∧
    (mkSourceModification 7 [] 9).selected_bytes_hash = 0 ∧
    (mkSourceModification 7 [] 9).lval = 7 ∧
    (mkSourceModification 7 [] 9).atp = 9 :=
  ⟨rfl, rfl, rfl, rfl⟩

/-- Amended C9: the `SourceModification` constructor performs no
validation; an empty selected-byte sequence is accepted and produces a
record with the given `lval` and `atp`, empty `selected_bytes`, and
`selected_bytes_hash = 0`.  Any rejection of malformed selections would
have to happen in callers, outside the data model. -/
theorem sm_empty_selection_accepted (l a : Nat) :
    (mkSourceModification l [] a).selected_bytes = [] ∧
    (mkSourceModification l [] a).selected_bytes_hash = 0 ∧
    (mkSourceModification l [] a).lval = l ∧
    (mkSourceModification l [] a).atp = a :=
  ⟨rfl, rfl, rfl, rfl⟩

/-- Claim C10: `AttackPoint::operator<<` prints only the `ATP_POINTER_RW`
and `ATP_FUNCTION_CALL` kinds; for the third valid enum value
`ATP_LARGE_BUFFER_AVAIL` it reaches `assert(false)` (modelled as `none`),
and those are exactly the failing inputs. -/
theorem atp_print_assert_large_buffer :
    (∃ m : AttackPoint, printAttackPoint m = none) ∧
    (∀ m : AttackPoint, printAttackPoint m = none ↔ m.type = .ATP_LARGE_BUFFER_AVAIL) := by
  constructor
  · exact ⟨⟨0, "f.c", 1, .ATP_LARGE_BUFFER_AVAIL⟩, rfl⟩
  · intro m
    rcases m with ⟨i, f, l, t⟩
    cases t <;> simp [printAttackPoint]

/-- Claim C8: under the declared constraints a `Run` must have a non-null
`build` (its only `not_null` pointer field), while `fuzzed` is
unconstrained: well-formedness is preserved by any `fuzzed` value, and a
record with null `fuzzed` (a baseline run) is well-formed whenever its
`build` is non-null. -/
theorem run_build_required_fuzzed_optional :
    (∀ r : Run, RunWF r → r.build ≠ 0) ∧
    (∀ (r : Run) (f : Nat), RunWF r → RunWF { r with fuzzed := f }) ∧
    (∀ i bld ec out s, bld ≠ 0 → RunWF ⟨i, bld, 0, ec, out, s⟩) :=
  ⟨fun _ h => h, fun _ _ h => h, fun _ _ _ _ _ h => h⟩

/-- A concrete `Dua` used to exercise `Dua::operator<`. -/
def duaA : Dua :=
  { id := 0, lval := 1, viable_bytes := [2], all_labels := [3], inputfile := "f",
    max_tcn := 0, max_cardinality := 0, instr := 5, fake_dua := false }

/-- A `Dua` agreeing with `duaA` on the declared uniqueness key
`(lval, inputfile, instr)` but with a different `max_tcn`. -/
def duaB : Dua := { duaA with max_tcn := 1 }

/-- A `Dua` agreeing with `duaA` on every field `Dua::operator<` compares,
differing only in `all_labels`. -/
def duaC : Dua := { duaA with all_labels := [4] }

/-- Counterexample to claim C1: `duaA` and `duaB` agree on the declared
uniqueness key `(lval, inputfile, instr)` yet `Dua::operator<` orders them
(`duaA < duaB` because their `max_tcn` differ), so the comparison is not
restricted to the key. -/
theorem dua_key_agreement_not_equiv :
    duaA.lval = duaB.lval ∧ duaA.inputfile = duaB.inputfile ∧ duaA.instr = duaB.instr ∧
    duaA.max_tcn ≠ duaB.max_tcn ∧ ltDua duaA duaB = true := by
  refine ⟨rfl, rfl, rfl, by decide, by decide⟩

/-- Amended C1: `Dua::operator<` compares the tuple `(lval, viable_bytes,
inputfile, max_tcn, max_cardinality, instr, fake_dua)` — strictly more than
the declared key `DuaUniq = (lval, inputfile, instr)`.  Candidates agreeing
on that full compared tuple are equivalent, and `all_labels` and `id` never
influence the comparison; but agreement on the declared key alone does not
make two candidates equivalent. -/
theorem dua_lt_respects_full_tuple (d1 d2 : Dua) (labels : List Nat) (ident : Nat)
    (h1 : d1.lval = d2.lval) (h2 : d1.viable_bytes = d2.viable_bytes)
    (h3 : d1.inputfile = d2.inputfile) (h4 : d1.max_tcn = d2.max_tcn)
    (h5 : d1.max_cardinality = d2.max_cardinality) (h6 : d1.instr = d2.instr)
    (h7 : d1.fake_dua = d2.fake_dua) :
    (ltDua d1 d2 = false ∧ ltDua d2 d1 = false) ∧
    ltDua { d1 with all_labels := labels, id := ident } d2 = ltDua d1 d2 := by
  refine ⟨⟨?_, ?_⟩, rfl⟩ <;>
    simp [ltDua, lexStep, h1, h2, h3, h4, h5, h6, h7, natLtb_self, ltListNat_self,
      ltString_self, ltBool_self]

/-- Witness for amended C1: `duaA` and `duaC` agree on all compared fields
(differing in `all_labels`), so they are equivalent, and overriding
`all_labels` and `id` leaves the comparison unchanged. -/
theorem dua_lt_respects_full_tuple_witness :
    (ltDua duaA duaC = false ∧ ltDua duaC duaA = false) ∧
    ltDua { duaA with all_labels := [9], id := 3 } duaC = ltDua duaA duaC :=
  dua_lt_respects_full_tuple duaA duaC [9] 3 rfl rfl rfl rfl rfl rfl rfl

/-- Counterexample to claim C2: two `SourceModification` records built at
the same `atp` and `lval` from the distinct sequences `[0]` and
`[0, 65535]` have colliding hashes (`(65535 + 1) << 16` vanishes at 32-bit
width), and `SourceModification::operator<` — which compares
`(atp, lval, selected_bytes_hash)`, not the sequence — treats them as the
same record. -/
theorem sm_hash_collision_equiv :
    (mkSourceModification 1 [0] 1).atp = (mkSourceModification 1 [0, 65535] 1).atp ∧
    (mkSourceModification 1 [0] 1).lval = (mkSourceModification 1 [0, 65535] 1).lval ∧
    (mkSourceModification 1 [0] 1).selected_bytes
      ≠ (mkSourceModification 1 [0, 65535] 1).selected_bytes ∧
    ltSourceModification (mkSourceModification 1 [0] 1) (mkSourceModification 1 [0, 65535] 1) = false ∧
    ltSourceModification (mkSourceModification 1 [0, 65535] 1) (mkSourceModification 1 [0] 1) = false := by
  refine ⟨rfl, rfl, by decide, by decide, by decide⟩

/-- Amended C2: equivalence under `SourceModification::operator<` holds
exactly on agreement of `(atp, lval, selected_bytes_hash)`.  Records
agreeing on `(atp, lval, selected_bytes)` are therefore always equivalent,
but so are records whose distinct sequences merely collide in the hash. -/
theorem sm_lt_equiv_iff_hash_key :
    (∀ s t : SourceModification,
      (ltSourceModification s t = false ∧ ltSourceModification t s = false)
        ↔ (s.atp = t.atp ∧ s.lval = t.lval ∧ s.selected_bytes_hash = t.selected_bytes_hash)) ∧
    (∀ l a bytes,
      ltSourceModification (mkSourceModification l bytes a) (mkSourceModification l bytes a)
        = false) := by
  constructor
  · intro s t
    simp only [ltSourceModification, lexStep, Bool.or_eq_false_iff,
      Bool.and_eq_false_iff, Bool.not_eq_false', Bool.not_eq_true',
      decide_eq_false_iff_not, decide_eq_true_eq]
    omega
  · intro l a bytes
    simp [ltSourceModification, lexStep, natLtb_self]

/-- The constructor loop, started at position `i` with accumulator `h`,
XORs `h` with the per-position contributions of the remaining bytes. -/
theorem hashLoop_enumFrom :
    ∀ (bytes : List Nat) (i h : Nat),
      hashLoop i bytes h
        = h ^^^ (bytes.enumFrom i).foldr
            (fun ib acc => u32 (u32 (ib.2 + 1) * 2 ^ shiftAmt ib.1) ^^^ acc) 0
  | [], i, h => by simp [hashLoop, List.enumFrom, Nat.xor_zero]
  | b :: bs, i, h => by
    rw [hashLoop, hashLoop_enumFrom bs (i + 1)]
    simp only [List.enumFrom, List.foldr_cons, shiftAmt, Nat.shiftLeft_eq]
    rw [Nat.xor_assoc]

/-- Claim C4: the hash stored at `SourceModification` construction is the
exclusive-or, over all positions `i` of the selected-byte sequence, of the
selected index offset by one and left-shifted by `shiftAmt i = 16 * (i % 4)`
at 32-bit width (the accumulator is 64-bit, which never truncates the
32-bit summands); the shift amount takes four distinct values on the
first four positions and cycles with period four. -/
theorem sm_hash_xor_formula :
    (∀ l a bytes, (mkSourceModification l bytes a).selected_bytes_hash = specHash bytes) ∧
    List.Pairwise (fun i j => shiftAmt i ≠ shiftAmt j) [0, 1, 2, 3] ∧
    (∀ i, shiftAmt (i + 4) = shiftAmt i) := by
  refine ⟨fun l a bytes => ?_, by decide, fun i => ?_⟩
  · show selectedBytesHash bytes = specHash bytes
    rw [selectedBytesHash, specHash, hashLoop_enumFrom bytes 0 0, Nat.zero_xor]
  · simp [shiftAmt, Nat.add_mod_right]

/-- Claim C7: `SourceLval::operator<` holds exactly when the tuple
`(file, line, ast_name, timing)` is lexicographically smaller, and two
records agreeing on that tuple are equivalent (neither is less). -/
theorem sourcelval_lt_lexicographic (a b : SourceLval) :
    (ltSourceLval a b = true ↔ ltSourceLvalSpec a b) ∧
    ((a.file, a.line, a.ast_name, a.timing) = (b.file, b.line, b.ast_name, b.timing) →
      ltSourceLval a b = false ∧ ltSourceLval b a = false) := by
  constructor
  · have htim : decide (a.timing.val < b.timing.val) = true ↔ a.timing.val < b.timing.val :=
      decide_eq_true_iff
    have hast := lexStep_true_iff ltString ltString_self ltString_eq a.ast_name b.ast_name _
      (ltLexList_charLt_iff a.ast_name.data b.ast_name.data) htim
    have hline := lexStep_true_iff (fun x y : Nat => decide (x < y)) natLtb_self natLtb_eq
      a.line b.line _ decide_eq_true_iff hast
    have hfile := lexStep_true_iff ltString ltString_self ltString_eq a.file b.file _
      (ltLexList_charLt_iff a.file.data b.file.data) hline
    exact hfile
  · intro h
    obtain ⟨hf, hl, ha, ht⟩ :
        a.file = b.file ∧ a.line = b.line ∧ a.ast_name = b.ast_name ∧ a.timing = b.timing := by
      simpa [Prod.ext_iff] using h
    constructor <;>
      simp [ltSourceLval, lexStep, hf, hl, ha, ht, ltString_self, natLtb_self]

/-- A concrete `SourceLval` for exercising the ordering. -/
def lvalX : SourceLval := ⟨0, "a.c", 10, "x", .BEFORE_OCCURRENCE⟩

/-- Witness for C7: a record agreeing with itself on the key tuple is
equivalent to itself. -/
theorem sourcelval_lt_lexicographic_witness :
    ltSourceLval lvalX lvalX = false ∧ ltSourceLval lvalX lvalX = false :=
  (sourcelval_lt_lexicographic lvalX lvalX).2 rfl

/-- Witness for C8: a concrete baseline `Run` (null `fuzzed`, `build = 1`)
is well-formed and has a non-null build. -/
theorem run_build_required_fuzzed_optional_witness :
    RunWF ⟨0, 1, 0, 0, "", true⟩ ∧ (⟨0, 1, 0, 0, "", true⟩ : Run).build ≠ 0 := by
  constructor
  · exact run_build_required_fuzzed_optional.2.2 0 1 0 "" true (by decide)
  · exact run_build_required_fuzzed_optional.1 ⟨0, 1, 0, 0, "", true⟩ (by decide)
